import Mathlib

namespace JiraWip

instance {ε α : Type} [DecidableEq ε] [DecidableEq α] : DecidableEq (Except ε α) :=
  fun x y =>
    match x, y with
    | .ok a, .ok b =>
        if h : a = b then .isTrue (by rw [h]) else .isFalse (by simp [h])
    | .error a, .error b =>
        if h : a = b then .isTrue (by rw [h]) else .isFalse (by simp [h])
    | .ok _, .error _ => .isFalse (by simp)
    | .error _, .ok _ => .isFalse (by simp)

/-- A Rust `String` modelled as its sequence of Unicode scalar values. -/
abbrev RustString := List Char

/-- Rust's `String::len`: the length of the UTF-8 encoding, in bytes. -/
def utf8Len (s : RustString) : Nat := (s.map Char.utf8Size).sum

/-- Modelled from the spec: `Status` comes from the `recap` module, which is not
part of the sources; the spec describes it as "an enumerated value with at least
the variants {ToDo, Done}", defaulting to ToDo on creation. -/
inductive Status where
  | ToDo
  | Done
deriving DecidableEq

/-- `ValidationError(String)` from the source. -/
structure ValidationError where
  msg : RustString
deriving DecidableEq

/-- `TicketTitle(String)`. -/
structure TicketTitle where
  val : RustString
deriving DecidableEq

/-- `TicketTitle::new` from the source: rejects the empty string and any string
whose length (`String::len`, UTF-8 bytes) exceeds 50. -/
def TicketTitle.new (title : RustString) : Except ValidationError TicketTitle :=
  if title.isEmpty then
    .error ⟨"Title cannot be empty!".data⟩
  else if utf8Len title > 50 then
    .error ⟨"A title cannot be longer than 50 characters!".data⟩
  else
    .ok ⟨title⟩

/-- `TicketDescription(String)`. -/
structure TicketDescription where
  val : RustString
deriving DecidableEq

/-- `TicketDescription::new` from the source: rejects any string whose length
(`String::len`, UTF-8 bytes) exceeds 3000. -/
def TicketDescription.new (description : RustString) :
    Except ValidationError TicketDescription :=
  if utf8Len description > 3000 then
    .error ⟨"A description cannot be longer than 3000 characters!".data⟩
  else
    .ok ⟨description⟩

/-- Modelled from the spec: `TicketId` comes from the `id_generation` module,
which is not part of the sources; the spec describes an identity as "a strictly
increasing integer, starting at 1, assigned by the store at save time". -/
abbrev TicketId := Nat

/-- A `chrono::DateTime<Utc>` timestamp, modelled as a natural number; every
effectful call to `Utc::now()` is modelled by an explicit `now` argument. -/
abbrev Timestamp := Nat

/-- `TicketDraft { title, description }` from the source. -/
structure TicketDraft where
  title : TicketTitle
  description : TicketDescription
deriving DecidableEq

/-- `TicketPatch { title, description, status }` from the source: each field is
optional, absent meaning "leave unchanged". -/
structure TicketPatch where
  title : Option TicketTitle
  description : Option TicketDescription
  status : Option Status
deriving DecidableEq

/-- `Ticket` from the source. -/
structure Ticket where
  id : TicketId
  title : TicketTitle
  description : TicketDescription
  status : Status
  created_at : Timestamp
  updated_at : Timestamp
deriving DecidableEq

/-- `DeletedTicket { ticket, deleted_at }` from the source. -/
structure DeletedTicket where
  ticket : Ticket
  deleted_at : Timestamp
deriving DecidableEq

/-- `HashMap::get`: lookup of a key in the association-list model of the map. -/
def findEntry : List (TicketId × Ticket) → TicketId → Option Ticket
  | [], _ => none
  | (k, v) :: rest, id => if id = k then some v else findEntry rest id

/-- `HashMap::remove`'s effect on the map: drop every binding of the key. -/
def hmRemove : List (TicketId × Ticket) → TicketId → List (TicketId × Ticket)
  | [], _ => []
  | (k, v) :: rest, id => if k = id then hmRemove rest id else (k, v) :: hmRemove rest id

/-- `HashMap::insert`'s effect on the map: bind the key to the value, replacing
any previous binding. -/
def hmInsert (m : List (TicketId × Ticket)) (id : TicketId) (t : Ticket) :
    List (TicketId × Ticket) :=
  (id, t) :: hmRemove m id

/-- `TicketStore { data, current_id }`, with the `HashMap` modelled as an
association list (lookup semantics identical; iteration order is unspecified in
the source anyway). -/
structure TicketStore where
  data : List (TicketId × Ticket)
  current_id : TicketId
deriving DecidableEq

/-- `TicketStore::new`. -/
def TicketStore.new : TicketStore :=
  { data := [], current_id := 0 }

/-- `TicketStore::generate_id`: increment the counter and return it. -/
def TicketStore.generate_id (s : TicketStore) : TicketId × TicketStore :=
  (s.current_id + 1, { s with current_id := s.current_id + 1 })

/-- `TicketStore::save`: fresh id, new ticket with status `ToDo` and
`created_at = updated_at = now`, inserted into the map; returns the id. -/
def TicketStore.save (s : TicketStore) (draft : TicketDraft) (now : Timestamp) :
    TicketId × TicketStore :=
  let r := s.generate_id
  let ticket : Ticket :=
    { id := r.1
      title := draft.title
      description := draft.description
      status := Status.ToDo
      created_at := now
      updated_at := now }
  (r.1, { r.2 with data := hmInsert r.2.data r.1 ticket })

/-- `TicketStore::get`. -/
def TicketStore.get (s : TicketStore) (id : TicketId) : Option Ticket :=
  findEntry s.data id

/-- `TicketStore::list`: all stored tickets (`HashMap::values`). -/
def TicketStore.list (s : TicketStore) : List Ticket :=
  s.data.map Prod.snd

/-- `TicketStore::update`: if the id is absent return `None`; otherwise apply
each present patch field in order (title, description, status), unconditionally
stamp `updated_at` with the current time, and return the updated ticket. -/
def TicketStore.update (s : TicketStore) (id : TicketId) (patch : TicketPatch)
    (now : Timestamp) : Option Ticket × TicketStore :=
  match findEntry s.data id with
  | none => (none, s)
  | some ticket =>
    let ticket :=
      match patch.title with
      | some title => { ticket with title := title }
      | none => ticket
    let ticket :=
      match patch.description with
      | some description => { ticket with description := description }
      | none => ticket
    let ticket :=
      match patch.status with
      | some status => { ticket with status := status }
      | none => ticket
    let ticket := { ticket with updated_at := now }
    (some ticket, { s with data := hmInsert s.data id ticket })

/-- `TicketStore::delete`: if the id is absent return `None`; otherwise remove
the ticket and return it wrapped in a `DeletedTicket` stamped with the current
time. -/
def TicketStore.delete (s : TicketStore) (id : TicketId) (now : Timestamp) :
    Option DeletedTicket × TicketStore :=
  match findEntry s.data id with
  | none => (none, s)
  | some ticket =>
    (some { ticket := ticket, deleted_at := now }, { s with data := hmRemove s.data id })

/-- One observable client call on the store.  `get` and `list` are included for
completeness; they do not change the state.  Each state-changing call carries
the value the wall clock (`Utc::now()`) yields during it. -/
inductive Op where
  | save (draft : TicketDraft) (now : Timestamp)
  | update (id : TicketId) (patch : TicketPatch) (now : Timestamp)
  | delete (id : TicketId) (now : Timestamp)
  | get (id : TicketId)
  | list
deriving DecidableEq

/-- The state reached after one call. -/
def execOp (s : TicketStore) : Op → TicketStore
  | .save d now => (s.save d now).2
  | .update id p now => (s.update id p now).2
  | .delete id now => (s.delete id now).2
  | .get _ => s
  | .list => s

/-- The state reached after a sequence of calls. -/
def exec (s : TicketStore) : List Op → TicketStore
  | [] => s
  | op :: rest => exec (execOp s op) rest

/-- The identities returned by the `save` calls of a sequence, in call order. -/
def saveIds (s : TicketStore) : List Op → List TicketId
  | [] => []
  | .save d now :: rest => (s.save d now).1 :: saveIds (s.save d now).2 rest
  | op :: rest => saveIds (execOp s op) rest

/-- The number of `save` calls in a sequence. -/
def countSaves : List Op → Nat
  | [] => 0
  | .save _ _ :: rest => countSaves rest + 1
  | _ :: rest => countSaves rest

/-- The list of the `n` consecutive integers starting at `start`. -/
def idsFrom : Nat → Nat → List Nat
  | _, 0 => []
  | start, n + 1 => start :: idsFrom (start + 1) n

/-- The wall-clock readings a sequence of calls consumes, in order. -/
def nowsOf : List Op → List Timestamp
  | [] => []
  | .save _ now :: rest => now :: nowsOf rest
  | .update _ _ now :: rest => now :: nowsOf rest
  | .delete _ now :: rest => now :: nowsOf rest
  | _ :: rest => nowsOf rest

/-- A list of timestamps is non-decreasing. -/
def nondecreasing : List Timestamp → Bool
  | [] => true
  | [_] => true
  | a :: b :: rest => a ≤ b && nondecreasing (b :: rest)

theorem findEntry_hmRemove (m : List (TicketId × Ticket)) (k k' : TicketId) :
    findEntry (hmRemove m k) k' = if k' = k then none else findEntry m k' := by
  induction m with
  | nil => simp [hmRemove, findEntry]
  | cons e rest ih =>
    obtain ⟨a, v⟩ := e
    by_cases h1 : a = k <;> by_cases h2 : k' = k <;> by_cases h3 : k' = a <;>
      simp_all [hmRemove, findEntry]

theorem findEntry_hmInsert (m : List (TicketId × Ticket)) (k : TicketId) (t : Ticket)
    (k' : TicketId) :
    findEntry (hmInsert m k t) k' = if k' = k then some t else findEntry m k' := by
  by_cases h : k' = k <;> simp [hmInsert, findEntry, findEntry_hmRemove, h]

/-- The ticket that results from applying a patch to a stored ticket at time
`now`, as the spec describes it: a present field overwrites, an absent field is
left at its prior value, `id` and `created_at` cannot be touched, and
`updated_at` is unconditionally stamped with `now`. -/
def patchApplied (t : Ticket) (p : TicketPatch) (now : Timestamp) : Ticket :=
  { id := t.id
    title := p.title.getD t.title
    description := p.description.getD t.description
    status := p.status.getD t.status
    created_at := t.created_at
    updated_at := now }

theorem update_of_found (s : TicketStore) (id : TicketId) (p : TicketPatch)
    (now : Timestamp) (t : Ticket) (h : s.get id = some t) :
    s.update id p now =
      (some (patchApplied t p now),
        { s with data := hmInsert s.data id (patchApplied t p now) }) := by
  obtain ⟨pt, pd, ps⟩ := p
  unfold TicketStore.get at h
  unfold TicketStore.update
  rw [h]
  cases pt <;> cases pd <;> cases ps <;> rfl

theorem update_of_missing (s : TicketStore) (id : TicketId) (p : TicketPatch)
    (now : Timestamp) (h : s.get id = none) :
    s.update id p now = (none, s) := by
  unfold TicketStore.get at h
  unfold TicketStore.update
  rw [h]

theorem delete_of_found (s : TicketStore) (id : TicketId) (now : Timestamp)
    (t : Ticket) (h : s.get id = some t) :
    s.delete id now =
      (some { ticket := t, deleted_at := now }, { s with data := hmRemove s.data id }) := by
  unfold TicketStore.get at h
  unfold TicketStore.delete
  rw [h]

theorem delete_of_missing (s : TicketStore) (id : TicketId) (now : Timestamp)
    (h : s.get id = none) :
    s.delete id now = (none, s) := by
  unfold TicketStore.get at h
  unfold TicketStore.delete
  rw [h]

/-- Concrete fixtures used by the witness theorems. -/
def exTitle : TicketTitle := ⟨"Fix bug".data⟩

def exDescription : TicketDescription := ⟨"Null pointer on login".data⟩

def exDraft : TicketDraft := { title := exTitle, description := exDescription }

def exStore : TicketStore := (TicketStore.new.save exDraft 5).2

def exTicket : Ticket :=
  { id := 1, title := exTitle, description := exDescription, status := Status.ToDo,
    created_at := 5, updated_at := 5 }

def exPatch : TicketPatch := { title := none, description := none, status := some Status.Done }

def exFullPatch : TicketPatch :=
  { title := some ⟨"Fix the bug".data⟩
    description := some ⟨"Reproduced and fixed".data⟩
    status := some Status.Done }

def exFullyPatchedTicket : Ticket :=
  { id := 1, title := ⟨"Fix the bug".data⟩, description := ⟨"Reproduced and fixed".data⟩,
    status := Status.Done, created_at := 5, updated_at := 9 }

/-- C1: for an id present in the store, `update` overwrites exactly the fields
present in the patch, leaves absent fields at their prior values,
unconditionally stamps `updated_at` with the current time, and returns the
updated ticket (which is also the ticket then stored under the id). -/
theorem c1_update_applies_patch (s : TicketStore) (id : TicketId) (p : TicketPatch)
    (now : Timestamp) (t : Ticket) (h : s.get id = some t) :
    (s.update id p now).1 = some (patchApplied t p now) ∧
    ((s.update id p now).2).get id = some (patchApplied t p now) := by
  rw [update_of_found s id p now t h]
  simp [TicketStore.get, findEntry_hmInsert]

theorem c1_witness :
    exStore.get 1 = some exTicket ∧
    ((exStore.update 1 exPatch 9).1 = some (patchApplied exTicket exPatch 9) ∧
      ((exStore.update 1 exPatch 9).2).get 1 = some (patchApplied exTicket exPatch 9)) :=
  ⟨by decide, c1_update_applies_patch exStore 1 exPatch 9 exTicket (by decide)⟩

/-- C4: `delete` on an absent id returns `None` (and changes nothing); on a
present id it removes the ticket, so that a subsequent `get` returns `None`,
and the returned `DeletedTicket` carries exactly the pre-deletion ticket. -/
theorem c4_delete_semantics (s : TicketStore) (id : TicketId) (now : Timestamp) :
    (s.get id = none → s.delete id now = (none, s)) ∧
    (∀ t : Ticket, s.get id = some t →
      (s.delete id now).1 = some { ticket := t, deleted_at := now } ∧
      ((s.delete id now).2).get id = none) := by
  constructor
  · intro h
    exact delete_of_missing s id now h
  · intro t h
    rw [delete_of_found s id now t h]
    simp [TicketStore.get, findEntry_hmRemove]

theorem c4_witness :
    exStore.get 1 = some exTicket ∧
    ((exStore.delete 1 7).1 = some { ticket := exTicket, deleted_at := 7 } ∧
      ((exStore.delete 1 7).2).get 1 = none) :=
  ⟨by decide, (c4_delete_semantics exStore 1 7).2 exTicket (by decide)⟩

/-- C5: `update` on an id absent from the store returns `None` and leaves the
whole store state — ticket mapping and identity counter — unchanged. -/
theorem c5_update_missing_id (s : TicketStore) (id : TicketId) (p : TicketPatch)
    (now : Timestamp) (h : s.get id = none) :
    s.update id p now = (none, s) :=
  update_of_missing s id p now h

theorem c5_witness :
    exStore.get 42 = none ∧ exStore.update 42 exFullPatch 9 = (none, exStore) :=
  ⟨by decide, c5_update_missing_id exStore 42 exFullPatch 9 (by decide)⟩

/-- C10: `update` can never change the stored ticket's `id` or `created_at`:
whatever the patch (even one with every field present), the ticket stored under
the id after the call agrees with the prior one on both fields. -/
theorem c10_update_frame (s : TicketStore) (id : TicketId) (p : TicketPatch)
    (now : Timestamp) (t t' : Ticket) (h : s.get id = some t)
    (h' : ((s.update id p now).2).get id = some t') :
    t'.id = t.id ∧ t'.created_at = t.created_at := by
  rw [update_of_found s id p now t h] at h'
  simp [TicketStore.get, findEntry_hmInsert] at h'
  rw [← h']
  exact ⟨rfl, rfl⟩

theorem c10_witness :
    exStore.get 1 = some exTicket ∧
    ((exStore.update 1 exFullPatch 9).2).get 1 = some exFullyPatchedTicket ∧
    (exFullyPatchedTicket.id = exTicket.id ∧
      exFullyPatchedTicket.created_at = exTicket.created_at) :=
  ⟨by decide, by decide,
    c10_update_frame exStore 1 exFullPatch 9 exTicket exFullyPatchedTicket
      (by decide) (by decide)⟩

theorem save_fst (s : TicketStore) (d : TicketDraft) (now : Timestamp) :
    (s.save d now).1 = s.current_id + 1 := rfl

theorem save_snd_current_id (s : TicketStore) (d : TicketDraft) (now : Timestamp) :
    ((s.save d now).2).current_id = s.current_id + 1 := rfl

theorem update_snd_current_id (s : TicketStore) (id : TicketId) (p : TicketPatch)
    (now : Timestamp) : ((s.update id p now).2).current_id = s.current_id := by
  unfold TicketStore.update
  cases findEntry s.data id <;> rfl

theorem delete_snd_current_id (s : TicketStore) (id : TicketId) (now : Timestamp) :
    ((s.delete id now).2).current_id = s.current_id := by
  unfold TicketStore.delete
  cases findEntry s.data id <;> rfl

theorem execOp_current_id_of_not_save (s : TicketStore) (op : Op)
    (h : ∀ d now, op ≠ .save d now) : (execOp s op).current_id = s.current_id := by
  cases op with
  | save d now => exact absurd rfl (h d now)
  | update id p now => exact update_snd_current_id s id p now
  | delete id now => exact delete_snd_current_id s id now
  | get id => rfl
  | list => rfl

theorem saveIds_eq_idsFrom (ops : List Op) : ∀ s : TicketStore,
    saveIds s ops = idsFrom (s.current_id + 1) (countSaves ops) := by
  induction ops with
  | nil => intro s; rfl
  | cons op rest ih =>
    intro s
    cases op with
    | save d now =>
      rw [show saveIds s (.save d now :: rest)
            = (s.save d now).1 :: saveIds (s.save d now).2 rest from rfl,
        ih, save_fst, save_snd_current_id,
        show countSaves (.save d now :: rest) = countSaves rest + 1 from rfl]
      rfl
    | update id p now =>
      rw [show saveIds s (.update id p now :: rest)
            = saveIds (execOp s (.update id p now)) rest from rfl,
        ih, execOp, update_snd_current_id]
      rfl
    | delete id now =>
      rw [show saveIds s (.delete id now :: rest)
            = saveIds (execOp s (.delete id now)) rest from rfl,
        ih, execOp, delete_snd_current_id]
      rfl
    | get id =>
      rw [show saveIds s (.get id :: rest) = saveIds (execOp s (.get id)) rest from rfl, ih]
      rfl
    | list =>
      rw [show saveIds s (.list :: rest) = saveIds (execOp s .list) rest from rfl, ih]
      rfl

theorem le_of_mem_idsFrom {b : Nat} : ∀ {n a : Nat}, b ∈ idsFrom a n → a ≤ b := by
  intro n
  induction n with
  | zero => intro a h; simp [idsFrom] at h
  | succ n ih =>
    intro a h
    rw [idsFrom] at h
    rcases List.mem_cons.mp h with h | h
    · omega
    · have := ih h
      omega

theorem idsFrom_pairwise : ∀ (n a : Nat), (idsFrom a n).Pairwise (· < ·) := by
  intro n
  induction n with
  | zero => intro a; simp [idsFrom]
  | succ n ih =>
    intro a
    rw [idsFrom]
    refine List.pairwise_cons.mpr ⟨?_, ih (a + 1)⟩
    intro b hb
    have := le_of_mem_idsFrom hb
    omega

/-- C2: over any sequence of store operations started from a fresh store, the
identities handed out by the successive `save` calls are exactly
`1, 2, …, countSaves ops` — consecutive, gap-free, starting at 1 (the n-th save
returns n) — and strictly increasing, so an identity is never handed out twice,
deletions notwithstanding. -/
theorem c2_save_ids (ops : List Op) :
    saveIds TicketStore.new ops = idsFrom 1 (countSaves ops) ∧
    (saveIds TicketStore.new ops).Pairwise (· < ·) := by
  have h := saveIds_eq_idsFrom ops TicketStore.new
  constructor
  · exact h
  · rw [h]
    exact idsFrom_pairwise (countSaves ops) 1

/-- Every key present in the store is at most the identity counter; reachable
states keep this invariant. -/
def keysBounded (s : TicketStore) : Prop :=
  ∀ id t, s.get id = some t → id ≤ s.current_id

theorem keysBounded_execOp (s : TicketStore) (op : Op) (h : keysBounded s) :
    keysBounded (execOp s op) := by
  cases op with
  | save d now =>
    intro id t hid
    rw [show execOp s (.save d now) = (s.save d now).2 from rfl] at hid ⊢
    unfold TicketStore.save TicketStore.generate_id at hid
    rw [TicketStore.get] at hid
    simp only [findEntry_hmInsert] at hid
    rw [save_snd_current_id]
    by_cases he : id = s.current_id + 1
    · exact le_of_eq he
    · rw [if_neg he] at hid
      exact Nat.le_succ_of_le (h id t hid)
  | update i p now =>
    intro id t hid
    rw [show execOp s (.update i p now) = (s.update i p now).2 from rfl] at hid ⊢
    rw [update_snd_current_id]
    cases hf : s.get i with
    | none =>
      rw [update_of_missing s i p now hf] at hid
      exact h id t hid
    | some t0 =>
      rw [update_of_found s i p now t0 hf] at hid
      rw [TicketStore.get] at hid
      simp only [findEntry_hmInsert] at hid
      by_cases he : id = i
      · subst he
        exact h id t0 hf
      · rw [if_neg he] at hid
        exact h id t hid
  | delete i now =>
    intro id t hid
    rw [show execOp s (.delete i now) = (s.delete i now).2 from rfl] at hid ⊢
    rw [delete_snd_current_id]
    cases hf : s.get i with
    | none =>
      rw [delete_of_missing s i now hf] at hid
      exact h id t hid
    | some t0 =>
      rw [delete_of_found s i now t0 hf] at hid
      rw [TicketStore.get] at hid
      simp only [findEntry_hmRemove] at hid
      by_cases he : id = i
      · simp [he] at hid
      · rw [if_neg he] at hid
        exact h id t hid
  | get i => exact h
  | list => exact h

theorem keysBounded_exec (ops : List Op) :
    ∀ s : TicketStore, keysBounded s → keysBounded (exec s ops) := by
  induction ops with
  | nil => intro s h; exact h
  | cons op rest ih =>
    intro s h
    exact ih (execOp s op) (keysBounded_execOp s op h)

theorem keysBounded_new : keysBounded TicketStore.new := by
  intro id t h
  simp [TicketStore.new, TicketStore.get, findEntry] at h

/-- C3: from any reachable store, `save` (a total function: it never fails)
returns a fresh identity — one no ticket currently occupies — and immediately
afterwards `get` of that identity returns a ticket with the draft's title and
description, status `ToDo`, and `created_at = updated_at` (both the save-time
clock reading). -/
theorem c3_save_round_trip (ops : List Op) (draft : TicketDraft) (now : Timestamp) :
    (exec TicketStore.new ops).get ((exec TicketStore.new ops).save draft now).1 = none ∧
    (((exec TicketStore.new ops).save draft now).2).get
        ((exec TicketStore.new ops).save draft now).1 =
      some { id := ((exec TicketStore.new ops).save draft now).1
             title := draft.title
             description := draft.description
             status := Status.ToDo
             created_at := now
             updated_at := now } := by
  have hb : keysBounded (exec TicketStore.new ops) :=
    keysBounded_exec ops TicketStore.new keysBounded_new
  constructor
  · rw [save_fst]
    cases hf : (exec TicketStore.new ops).get ((exec TicketStore.new ops).current_id + 1) with
    | none => rfl
    | some t =>
      exact absurd (hb _ t hf) (Nat.not_succ_le_self _)
  · rw [save_fst]
    unfold TicketStore.save TicketStore.generate_id
    rw [TicketStore.get]
    simp [findEntry_hmInsert]

/-- Every ticket in the store has `created_at ≤ updated_at`, and no stored
`updated_at` exceeds `c` (the last clock reading consumed so far). -/
def timesBounded (s : TicketStore) (c : Timestamp) : Prop :=
  ∀ id t, s.get id = some t → t.created_at ≤ t.updated_at ∧ t.updated_at ≤ c

theorem nondecreasing_cons (a b : Timestamp) (l : List Timestamp) :
    nondecreasing (a :: b :: l) = true ↔ a ≤ b ∧ nondecreasing (b :: l) = true := by
  simp [nondecreasing]

theorem nondecreasing_zero_cons (l : List Timestamp) (h : nondecreasing l = true) :
    nondecreasing (0 :: l) = true := by
  cases l with
  | nil => rfl
  | cons a rest => exact (nondecreasing_cons 0 a rest).mpr ⟨Nat.zero_le a, h⟩

theorem exec_created_le_updated (ops : List Op) :
    ∀ (s : TicketStore) (c : Timestamp), timesBounded s c →
      nondecreasing (c :: nowsOf ops) = true →
      ∀ id t, (exec s ops).get id = some t → t.created_at ≤ t.updated_at := by
  induction ops with
  | nil =>
    intro s c hb _ id t h
    exact (hb id t h).1
  | cons op rest ih =>
    intro s c hb hc
    cases op with
    | save d now =>
      have hc' : c ≤ now ∧ nondecreasing (now :: nowsOf rest) = true :=
        (nondecreasing_cons c now (nowsOf rest)).mp hc
      refine ih ((s.save d now).2) now ?_ hc'.2
      intro id t hid
      unfold TicketStore.save TicketStore.generate_id at hid
      rw [TicketStore.get] at hid
      simp only [findEntry_hmInsert] at hid
      by_cases he : id = s.current_id + 1
      · rw [if_pos he] at hid
        rw [← Option.some_inj.mp hid]
        exact ⟨Nat.le_refl now, Nat.le_refl now⟩
      · rw [if_neg he] at hid
        have hbt := hb id t hid
        exact ⟨hbt.1, le_trans hbt.2 hc'.1⟩
    | update i p now =>
      have hc' : c ≤ now ∧ nondecreasing (now :: nowsOf rest) = true :=
        (nondecreasing_cons c now (nowsOf rest)).mp hc
      refine ih ((s.update i p now).2) now ?_ hc'.2
      intro id t hid
      cases hf : s.get i with
      | none =>
        rw [update_of_missing s i p now hf] at hid
        have hbt := hb id t hid
        exact ⟨hbt.1, le_trans hbt.2 hc'.1⟩
      | some t0 =>
        rw [update_of_found s i p now t0 hf] at hid
        rw [TicketStore.get] at hid
        simp only [findEntry_hmInsert] at hid
        by_cases he : id = i
        · rw [if_pos he] at hid
          have h0 := hb i t0 hf
          rw [← Option.some_inj.mp hid]
          exact ⟨le_trans h0.1 (le_trans h0.2 hc'.1), Nat.le_refl now⟩
        · rw [if_neg he] at hid
          have hbt := hb id t hid
          exact ⟨hbt.1, le_trans hbt.2 hc'.1⟩
    | delete i now =>
      have hc' : c ≤ now ∧ nondecreasing (now :: nowsOf rest) = true :=
        (nondecreasing_cons c now (nowsOf rest)).mp hc
      refine ih ((s.delete i now).2) now ?_ hc'.2
      intro id t hid
      cases hf : s.get i with
      | none =>
        rw [delete_of_missing s i now hf] at hid
        have hbt := hb id t hid
        exact ⟨hbt.1, le_trans hbt.2 hc'.1⟩
      | some t0 =>
        rw [delete_of_found s i now t0 hf] at hid
        rw [TicketStore.get] at hid
        simp only [findEntry_hmRemove] at hid
        by_cases he : id = i
        · rw [if_pos he] at hid
          exact absurd hid (by simp)
        · rw [if_neg he] at hid
          have hbt := hb id t hid
          exact ⟨hbt.1, le_trans hbt.2 hc'.1⟩
    | get i => exact ih s c hb hc
    | list => exact ih s c hb hc

/-- C9: along any sequence of store calls whose wall-clock readings are
non-decreasing, every ticket held in the reachable store state satisfies
`created_at ≤ updated_at`. -/
theorem c9_created_le_updated (ops : List Op)
    (h : nondecreasing (nowsOf ops) = true) :
    ∀ id t, (exec TicketStore.new ops).get id = some t →
      t.created_at ≤ t.updated_at := by
  refine exec_created_le_updated ops TicketStore.new 0 ?_ (nondecreasing_zero_cons _ h)
  intro id t hid
  simp [TicketStore.new, TicketStore.get, findEntry] at hid

/-- A sample call sequence exercising save, update, delete, get and list. -/
def exOps : List Op :=
  [Op.save exDraft 5, Op.update 1 exPatch 7, Op.save exDraft 7,
    Op.delete 1 9, Op.get 2, Op.list]

def exSecondTicket : Ticket :=
  { id := 2, title := exTitle, description := exDescription, status := Status.ToDo,
    created_at := 7, updated_at := 7 }

theorem c9_witness :
    nondecreasing (nowsOf exOps) = true ∧
    ((exec TicketStore.new exOps).get 2 = some exSecondTicket →
      exSecondTicket.created_at ≤ exSecondTicket.updated_at) :=
  ⟨by decide, c9_created_le_updated exOps (by decide) 2 exSecondTicket⟩

theorem utf8Len_cons (c : Char) (l : RustString) :
    utf8Len (c :: l) = c.utf8Size + utf8Len l := by
  simp [utf8Len]

theorem utf8Len_replicate (n : Nat) (c : Char) :
    utf8Len (List.replicate n c) = n * c.utf8Size := by
  induction n with
  | zero => simp [utf8Len]
  | succ n ih =>
    rw [List.replicate_succ, utf8Len_cons, ih]
    ring

theorem isEmpty_eq_false_of_utf8Len_pos {s : RustString} (h : 1 ≤ utf8Len s) :
    s.isEmpty = false := by
  cases s with
  | nil => simp [utf8Len] at h
  | cons c l => rfl

/-- C6 (amended): the source's length check is on `String::len`, the UTF-8
byte length; every string of 1 to 50 bytes is accepted by `TicketTitle::new`
and round-trips exactly. -/
theorem c6_title_roundtrip (s : RustString) (h1 : 1 ≤ utf8Len s)
    (h2 : utf8Len s ≤ 50) :
    TicketTitle.new s = .ok ⟨s⟩ := by
  unfold TicketTitle.new
  rw [isEmpty_eq_false_of_utf8Len_pos h1]
  have h3 : ¬ utf8Len s > 50 := Nat.not_lt.mpr h2
  simp [h3]

theorem c6_witness :
    1 ≤ utf8Len "Fix bug".data ∧ utf8Len "Fix bug".data ≤ 50 ∧
    TicketTitle.new "Fix bug".data = .ok ⟨"Fix bug".data⟩ :=
  ⟨by decide, by decide,
    c6_title_roundtrip "Fix bug".data (by decide) (by decide)⟩

/-- C6 counterexample: a title of exactly 50 characters, each of which encodes
to two UTF-8 bytes, is rejected by `TicketTitle::new` (its `String::len` is
100 > 50), so "every string of 1 to 50 characters succeeds" is false. -/
theorem c6_counterexample :
    1 ≤ (List.replicate 50 'é' : RustString).length ∧
    (List.replicate 50 'é' : RustString).length ≤ 50 ∧
    TicketTitle.new (List.replicate 50 'é') =
      .error ⟨"A title cannot be longer than 50 characters!".data⟩ := by
  refine ⟨by decide, by decide, ?_⟩
  decide

/-- C7: `TicketTitle::new` fails with message "Title cannot be empty!" on the
empty string, fails with message "A title cannot be longer than 50 characters!"
when the length (`String::len`) exceeds 50, and never fails for any other
reason. -/
theorem c7_title_errors (s : RustString) :
    (s = [] → TicketTitle.new s = .error ⟨"Title cannot be empty!".data⟩) ∧
    (s ≠ [] → utf8Len s > 50 →
      TicketTitle.new s = .error ⟨"A title cannot be longer than 50 characters!".data⟩) ∧
    (∀ e : ValidationError, TicketTitle.new s = .error e →
      s = [] ∨ utf8Len s > 50) := by
  refine ⟨?_, ?_, ?_⟩
  · intro h
    subst h
    rfl
  · intro hne hlen
    unfold TicketTitle.new
    rw [show s.isEmpty = false from by cases s with | nil => exact absurd rfl hne | cons c l => rfl]
    simp [hlen]
  · intro e he
    by_cases h0 : s = []
    · exact Or.inl h0
    · by_cases h1 : utf8Len s > 50
      · exact Or.inr h1
      · exfalso
        unfold TicketTitle.new at he
        rw [show s.isEmpty = false from
          by cases s with | nil => exact absurd rfl h0 | cons c l => rfl] at he
        simp [h1] at he

theorem c7_witness :
    TicketTitle.new [] = .error ⟨"Title cannot be empty!".data⟩ :=
  (c7_title_errors []).1 rfl

/-- A description of 1501 characters, each of which encodes to two UTF-8
bytes. -/
def longDescription : RustString := List.replicate 1501 'é'

/-- C8 counterexample: `longDescription` has 1501 characters — not more than
3000 — yet `TicketDescription::new` rejects it, because its `String::len`
(UTF-8 bytes) is 3002 > 3000; so "fails exactly when the string exceeds 3000
characters" is false. -/
theorem c8_counterexample :
    longDescription.length ≤ 3000 ∧
    (TicketDescription.new longDescription).isOk = false := by
  constructor
  · rw [longDescription, List.length_replicate]
    omega
  · have h : utf8Len longDescription = 3002 := by
      rw [longDescription, utf8Len_replicate]
      decide
    simp [TicketDescription.new, h, Except.isOk, Except.toBool]

/-- C8 (amended): the source's length check is on `String::len`, the UTF-8 byte
length; `TicketDescription::new` fails exactly when the byte length exceeds
3000, and the empty string is accepted. -/
theorem c8_description_validation (s : RustString) :
    ((TicketDescription.new s).isOk = false ↔ 3000 < utf8Len s) ∧
    TicketDescription.new [] = .ok ⟨[]⟩ := by
  constructor
  · by_cases h : 3000 < utf8Len s <;>
      simp [TicketDescription.new, h, Except.isOk, Except.toBool]
  · rfl

theorem c8_witness :
    ((TicketDescription.new "Null pointer on login".data).isOk = false ↔
      3000 < utf8Len "Null pointer on login".data) ∧
    TicketDescription.new [] = .ok ⟨[]⟩ :=
  c8_description_validation "Null pointer on login".data

end JiraWip
